import Mathlib

/-!
Verification of the cog-assembly service manager (`app/manager.py`,
`app/main.py`, `app/utils.py`) against its natural-language specification.

The Python code is shallowly embedded: pure helpers become Lean functions
over `List Char` and `Nat`/`Int`/`ℚ`, the mutable `Service` dataclass becomes
a record that is threaded explicitly, Python exceptions become `Except`
results, and the blocking waits of the single-threaded semantics (waiting on
another thread to change a status) are modelled as non-termination via
`Option` (`none` = the call never returns in a sequential execution).
Python floats are modelled by exact rationals; theorems that depend on the
value of a float computation carry an explicit `< 2 ^ 53` bound under which
Python float arithmetic on integers is exact.
-/

namespace CogAsm

/-- Mirror of `app.utils.MemoryInfo` (all quantities are byte counts). -/
structure MemoryInfo where
  free : Nat
  used : Nat
  total : Nat
deriving DecidableEq, Repr

/-- Mirror of `app.manager.ServiceStatus`. -/
inductive ServiceStatus where
  | running
  | stopped
  | starting
  | stopping
deriving DecidableEq, Repr

/-- Mirror of the fields of `app.manager.ServiceConfig` used by the claims.
`max_ram_bytes` and `max_vram_bytes` model the already-parsed values
`convert_to_int(config.max_ram or 0)` and `convert_to_int(config.max_vram or 0)`
(with `None` mapped to `0`); the string-typed container fields (`image`,
`mounts`, `environment`, health-check fields) are passed separately to the
functions that consume them. -/
structure ServiceConfig where
  use_gpu : Bool
  use_cpu : Bool
  max_ram_bytes : Nat
  max_vram_bytes : Nat
  idle_timeout : ℚ
  max_boot_time : ℚ
deriving DecidableEq, Repr

/-- Mirror of the runtime fields of the `app.manager.Service` dataclass. -/
structure Service where
  config : ServiceConfig
  status : ServiceStatus
  device : Int
  pid : Int
  host_port : Int
  ram : Nat
  vram : Nat
  boot_time : ℚ
  peak_ram : Nat
  peak_vram : Nat
  peak_boot_time : ℚ
  connections : Int
  last_activity : ℚ
deriving DecidableEq, Repr

/-- A freshly registered `Service` with the dataclass defaults
(`status=STOPPED`, `device=-1`, `pid=-1`, `host_port=-1`, counters zero). -/
def Service.initial (config : ServiceConfig) : Service where
  config := config
  status := ServiceStatus.stopped
  device := -1
  pid := -1
  host_port := -1
  ram := 0
  vram := 0
  boot_time := 0
  peak_ram := 0
  peak_vram := 0
  peak_boot_time := 0
  connections := 0
  last_activity := 0

/-! ### `app.utils.convert_to_int` (the size parser) -/

/-- Python `s[-n:]` (clamped at the full string for short strings, which
truncated `Nat` subtraction models exactly). -/
def lastN (l : List Char) (n : Nat) : List Char := l.drop (l.length - n)

/-- Python `s[:-n]` (empty for short strings). -/
def dropLastN (l : List Char) (n : Nat) : List Char := l.take (l.length - n)

/-- The `units` dictionary of `convert_to_int`: suffix string to multiplier. -/
def unitVal (l : List Char) : Option Nat :=
  if l = ['k'] then some (10 ^ 3)
  else if l = ['K'] then some (10 ^ 3)
  else if l = ['m'] then some (10 ^ 6)
  else if l = ['M'] then some (10 ^ 6)
  else if l = ['g'] then some (10 ^ 9)
  else if l = ['G'] then some (10 ^ 9)
  else if l = ['t'] then some (10 ^ 12)
  else if l = ['T'] then some (10 ^ 12)
  else if l = ['K', 'i'] then some (2 ^ 10)
  else if l = ['M', 'i'] then some (2 ^ 20)
  else if l = ['G', 'i'] then some (2 ^ 30)
  else none

/-- Value of a decimal digit string, most significant digit first. -/
def digitsVal (l : List Char) : Nat :=
  l.foldl (fun a c => a * 10 + (c.toNat - 48)) 0

/-- Python `int(s)` / `float(s)` on the numeric part of a size string,
modelled for non-empty unsigned decimal-integer strings (`none` models the
`ValueError` raised on anything else; signs, whitespace, underscores and
fractional parts accepted by Python are outside the inputs the spec's
grammar describes). -/
def parseNatDigits (l : List Char) : Option Nat :=
  if l ≠ [] ∧ l.all Char.isDigit then some (digitsVal l) else none

/-- Mirror of `app.utils.convert_to_int` on strings: a two-character suffix
from `units` takes precedence, then a one-character suffix, else the whole
string is the number.  `int(float(prefix) * unit)` is modelled as exact
integer arithmetic, which agrees with Python's float computation whenever
the result is below `2 ^ 53` (the bound carried by the theorems). -/
def convert_to_int (l : List Char) : Option Nat :=
  match unitVal (lastN l 2) with
  | some m => (parseNatDigits (dropLastN l 2)).map (fun n => n * m)
  | none =>
    match unitVal (lastN l 1) with
    | some m => (parseNatDigits (dropLastN l 1)).map (fun n => n * m)
    | none => parseNatDigits l

/-! ### `app.manager.to_container_name` -/

/-- ASCII case of Python `str.lower` on one character (the container names
in scope are ASCII). -/
def lowerChar (c : Char) : Char :=
  if 'A'.toNat ≤ c.toNat ∧ c.toNat ≤ 'Z'.toNat then Char.ofNat (c.toNat + 32) else c

/-- The character class of the regex `[a-z0-9_.-]` in `to_container_name`. -/
def isAllowedChar (c : Char) : Bool :=
  decide (('a'.toNat ≤ c.toNat ∧ c.toNat ≤ 'z'.toNat)
    ∨ ('0'.toNat ≤ c.toNat ∧ c.toNat ≤ '9'.toNat)
    ∨ c = '_' ∨ c = '.' ∨ c = '-')

/-- `re.sub(r"[^a-z0-9_.-]", "-", ...)` on one character. -/
def sanitizeChar (c : Char) : Char := if isAllowedChar c then c else '-'

/-- The character class `[-.]` of the strip regex. -/
def isDotDash (c : Char) : Bool := decide (c = '-' ∨ c = '.')

/-- `re.sub(r"^[-.]+|[-.]+$", "", ...)`: remove the leading and the trailing
run of `-`/`.` characters. -/
def stripDotDash (l : List Char) : List Char :=
  ((l.dropWhile isDotDash).reverse.dropWhile isDotDash).reverse

/-- Mirror of `app.manager.to_container_name`: prepend `ca_` to the
lower-cased tag, replace characters outside `[a-z0-9_.-]` by `-`, strip
leading/trailing `-`/`.` runs, truncate to 255 characters. -/
def to_container_name (tag : List Char) : List Char :=
  (stripDotDash ((['c', 'a', '_'] ++ tag.map lowerChar).map sanitizeChar)).take 255

/-! ### `app.manager.parse_env_multiline` -/

/-- The whitespace characters removed by Python `str.strip()` (ASCII part). -/
def isPySpace (c : Char) : Bool :=
  decide (c = ' ' ∨ c = '\t' ∨ c = '\n' ∨ c = '\r' ∨ c = '\x0b' ∨ c = '\x0c')

/-- Python `str.strip()`. -/
def pyStrip (l : List Char) : List Char :=
  ((l.dropWhile isPySpace).reverse.dropWhile isPySpace).reverse

/-- Split on `'\n'`, keeping every (possibly empty) segment. -/
def splitOnNl : List Char → List (List Char)
  | [] => [[]]
  | c :: rest =>
    match splitOnNl rest with
    | [] => [[]]
    | h :: t => if c = '\n' then [] :: h :: t else (c :: h) :: t

/-- Python `str.splitlines()` for `'\n'`-terminated lines: like `splitOnNl`
but a trailing terminator does not produce a final empty line, and the empty
string has no lines. -/
def pySplitlines (l : List Char) : List (List Char) :=
  match (splitOnNl l).getLast? with
  | some [] => (splitOnNl l).dropLast
  | _ => splitOnNl l

/-- Python `dict` assignment `d[k] = v` on an insertion-ordered association
list: overwrite in place if the key exists, else append. -/
def dictSet : List (List Char × List Char) → List Char → List Char →
    List (List Char × List Char)
  | [], k, v => [(k, v)]
  | (k', v') :: rest, k, v =>
    if k' = k then (k', v) :: rest else (k', v') :: dictSet rest k v

/-- Lookup in an insertion-ordered association list (Python `d[k]`). -/
def lookupEnv : List (List Char × List Char) → List Char → Option (List Char)
  | [], _ => none
  | (k', v') :: rest, k => if k' = k then some v' else lookupEnv rest k

/-- The key written by one `KEY=VALUE` line: text before the first `=`,
stripped. -/
def envKey (line : List Char) : List Char :=
  pyStrip (line.takeWhile (fun c => decide (c ≠ '=')))

/-- The value written by one `KEY=VALUE` line: text after the first `=`,
stripped. -/
def envVal (line : List Char) : List Char :=
  pyStrip ((line.dropWhile (fun c => decide (c ≠ '='))).drop 1)

/-- One loop iteration of `parse_env_multiline`: lines containing `=` are
split at the first `=` and assigned, all other lines are skipped. -/
def envStep (env : List (List Char × List Char)) (line : List Char) :
    List (List Char × List Char) :=
  if line.contains '=' then dictSet env (envKey line) (envVal line) else env

/-- Mirror of `app.manager.parse_env_multiline`. -/
def parse_env_multiline (env_str : List Char) : List (List Char × List Char) :=
  (pySplitlines env_str).foldl envStep []

/-! ### `app.manager.check_container_health` -/

/-- Outcome of `container.logs()` in the `log` health-check branch.
Only `docker.errors.NotFound` is caught by the source (the clause
`except docker.errors.NotFound or docker.errors.NullResource` evaluates the
`or` first and catches only `NotFound`); `NullResource` propagates. -/
inductive LogsResult where
  | notFound
  | nullResource
  | ok (logs : List Char)
deriving DecidableEq, Repr

/-- Mirror of `app.manager.check_container_health`, dispatching on the
`health_check_type` string.  External effects are oracles: `httpResult`
is the `requests.get` outcome (`Except.error` for the caught
`ConnectionError`/`Timeout`), `reSearch pat text` is whether
`re.search(pat, text)` matched, `logsResult` is the `container.logs()`
outcome.  `Except.error ()` models an uncaught Python exception. -/
def check_container_health (health_check_type health_check_regex : List Char)
    (httpResult : Except Unit (List Char))
    (reSearch : List Char → List Char → Bool)
    (logsResult : LogsResult) : Except Unit Bool :=
  if health_check_type = ['n', 'o', 'n', 'e'] then Except.ok true
  else if health_check_type = ['h', 't', 't', 'p'] then
    match httpResult with
    | Except.error _ => Except.ok false
    | Except.ok text =>
      if health_check_regex = [] then Except.ok true
      else Except.ok (reSearch health_check_regex text)
  else if health_check_type = ['l', 'o', 'g'] then
    match logsResult with
    | LogsResult.notFound => Except.ok false
    | LogsResult.nullResource => Except.error ()
    | LogsResult.ok logs =>
      if health_check_regex = [] then Except.ok (decide (0 < logs.length))
      else Except.ok (reSearch health_check_regex logs)
  else Except.ok false

/-! ### `Service.shutdown_cost` and the reserved-memory accessors -/

/-- Mirror of the `Service.shutdown_cost` property (`app/manager.py`,
lines 115-124), with `time.time()` passed in as `now` so that
`idle_time = now - last_activity`.  Exact rational arithmetic stands in for
Python floats (`0.25` and `0.5` are exactly representable; `10 ** 8` is an
int in the source). -/
def Service.shutdown_cost (s : Service) (now : ℚ) : ℚ :=
  max 1 s.boot_time
    / ((s.vram : ℚ) + (s.ram : ℚ) * (1 / 4) + 10 ^ 8)
    * max 0 (1 - (now - s.last_activity) / s.config.idle_timeout) ^ 2
    * (if 0 < s.connections then 10 else 1)
    * (if s.config.use_gpu then 1 else 1 / 2)

/-- The spec's shutdown-cost formula, written from the words of the spec
(section 4.5) over plain arguments, for comparison with the source's
`Service.shutdown_cost`. -/
def specShutdownCost (boot_time vram ram idle_time idle_timeout : ℚ)
    (connections : Int) (use_gpu : Bool) : ℚ :=
  max 1 boot_time
    / (vram + ram * (1 / 4) + 10 ^ 8)
    * max 0 (1 - idle_time / idle_timeout) ^ 2
    * (if 0 < connections then 10 else 1)
    * (if use_gpu then 1 else 1 / 2)

/-- Mirror of the `Service.reserved_ram` property: `max(ram, parsed max_ram)`. -/
def Service.reserved_ram (s : Service) : Nat := max s.ram s.config.max_ram_bytes

/-- Mirror of the `Service.reserved_vram` property. -/
def Service.reserved_vram (s : Service) : Nat := max s.vram s.config.max_vram_bytes

/-! ### `ServiceManager.refresh_container_memory` and the boot-time update -/

/-- The per-service body of `ServiceManager.refresh_container_memory`
(`app/manager.py`, lines 466-493): with a live pid, overwrite `ram`/`vram`
with the measured values and raise the peaks when exceeded; with no pid,
zero the current readings and leave the peaks alone.  `measured_ram` is
`max(ram over pid and children)` and `measured_vram` the corresponding sum,
both supplied by the memory probe.  The source performs the two peak updates
as sequential conditionals after the assignments; each touches fields the
other does not read, so the simultaneous record update below is the same. -/
def refresh_container_memory (s : Service) (measured_ram measured_vram : Nat) :
    Service :=
  if 0 ≤ s.pid then
    { s with ram := measured_ram, vram := measured_vram,
             peak_ram := if s.peak_ram < measured_ram then measured_ram else s.peak_ram,
             peak_vram := if s.peak_vram < measured_vram then measured_vram else s.peak_vram }
  else { s with ram := 0, vram := 0 }

/-- The boot-time bookkeeping of `ServiceManager.start_service`
(`app/manager.py`, lines 298-300): record `boot_time` and raise
`peak_boot_time` when exceeded. -/
def recordBootTime (s : Service) (elapsed : ℚ) : Service :=
  { s with boot_time := elapsed,
           peak_boot_time := if s.peak_boot_time < elapsed then elapsed
                             else s.peak_boot_time }

/-- The operations touching `pid`/`ram`/`vram`/`boot_time` over a process
lifetime: the pid attach performed by `ServiceManager.refresh_containers`
(which copies the container's root pid into the service, making the live
branch of the memory refresh reachable), a monitor-loop memory refresh,
the boot-time recording in `start_service`, and the pid reset performed by
`stop_service`. -/
inductive MemOp where
  | attachPid (p : Int)
  | refresh (measured_ram measured_vram : Nat)
  | recordBoot (elapsed : ℚ)
  | clearPid
deriving Repr

/-- Apply one `MemOp` to a `Service`. -/
def applyMemOp (s : Service) : MemOp → Service
  | MemOp.attachPid p => { s with pid := p }
  | MemOp.refresh r v => refresh_container_memory s r v
  | MemOp.recordBoot t => recordBootTime s t
  | MemOp.clearPid => { s with status := ServiceStatus.stopped, pid := -1 }

/-- Apply a sequence of `MemOp`s, oldest first. -/
def applyMemOps (s : Service) (ops : List MemOp) : Service :=
  ops.foldl applyMemOp s

/-- The peak-accounting invariant of the spec: the peaks dominate the
current readings. -/
def PeakInv (s : Service) : Prop := s.ram ≤ s.peak_ram ∧ s.vram ≤ s.peak_vram

/-- Pointwise order on the three peak fields. -/
def peaksLe (s t : Service) : Prop :=
  s.peak_ram ≤ t.peak_ram ∧ s.peak_vram ≤ t.peak_vram
    ∧ s.peak_boot_time ≤ t.peak_boot_time

/-! ### Lifecycle: `start_service`, `stop_service`, `proxy_request` -/

/-- Python exceptions that reach the dispatcher. -/
inductive PyExc where
  | httpException (code : Nat)
  | resourceExhausted
  | valueError
deriving DecidableEq, Repr

/-- Mirror of `ServiceManager.start_service` in the sequential semantics.
`allocResult` is the outcome of the `self.allocate(...)` call (its inputs
are the system memory state, threaded separately), `new_port` the port
chosen by `find_unused_port`, `healthy` whether the health probe succeeded
within `max_boot_time`, and `elapsed` the measured boot time.  A `STARTING`
service is waited on for at most `max_boot_time` and the call then returns
with the state unchanged; a `STOPPING` service is waited on forever, which
the sequential model renders as `none` (the call never returns).  Container
engine effects (remove, create) have no footprint in the `Service` record
beyond the fields set here and are elided. -/
def start_service (s : Service) (allocResult : Except PyExc Int)
    (new_port : Int) (healthy : Bool) (elapsed : ℚ) :
    Option (Except PyExc Unit × Service) :=
  match s.status with
  | ServiceStatus.starting => some (Except.ok (), s)
  | ServiceStatus.stopping => none
  | ServiceStatus.running => some (Except.ok (), s)
  | ServiceStatus.stopped =>
    match allocResult with
    | Except.error e => some (Except.error e, s)
    | Except.ok d =>
      let s1 := { s with device := d, status := ServiceStatus.starting,
                         host_port := new_port }
      if healthy then
        some (Except.ok (), { recordBootTime s1 elapsed with
                                status := ServiceStatus.running })
      else some (Except.ok (), s1)

/-- Mirror of `ServiceManager.stop_service` in the sequential semantics.
Waiting on a `STOPPING` or `STARTING` service, and the drain loop while
`connections > 0`, never return sequentially (`none`).  `engine_stop_fails`
says whether `docker_client.containers.get(...).stop()` raises; the source
catches every exception, logs it, and still forces `status = STOPPED` and
`pid = -1`. -/
def stop_service (s : Service) (engine_stop_fails : Bool) : Option Service :=
  match s.status with
  | ServiceStatus.stopping => none
  | ServiceStatus.starting => none
  | ServiceStatus.stopped => some s
  | ServiceStatus.running =>
    if 0 < s.connections then none
    else
      let _ := engine_stop_fails
      some { s with status := ServiceStatus.stopped, pid := -1 }

/-- Mirror of the `/c/.../...` handler `proxy_request` (`app/main.py`,
lines 106-160).  `exists_svc` is the registry lookup, `perm_required` /
`has_group` the permission gate, `forward_ok` whether the upstream
`requests.request` call succeeded.  The handler increments `connections`
and stamps `last_activity`, then calls `start_service` OUTSIDE the
`try/finally`, forwards inside `try`, raises `HTTPException(404)` in
`except`, and decrements `connections` in `finally`.  The result pairs the
handler outcome (`Except.error` = a raised exception; `HTTPException`s are
rendered as responses by the framework, anything else is unhandled) with
the final service state. -/
def proxy_request (exists_svc perm_required has_group : Bool) (s : Service)
    (now : ℚ) (allocResult : Except PyExc Int) (new_port : Int)
    (healthy : Bool) (elapsed : ℚ) (forward_ok : Bool) :
    Option (Except PyExc Unit × Service) :=
  if ¬ exists_svc then some (Except.error (PyExc.httpException 404), s)
  else if perm_required ∧ ¬ has_group then
    some (Except.error (PyExc.httpException 403), s)
  else
    let s1 := { s with connections := s.connections + 1, last_activity := now }
    match start_service s1 allocResult new_port healthy elapsed with
    | none => none
    | some (Except.error e, s2) => some (Except.error e, s2)
    | some (Except.ok _, s2) =>
      if forward_ok then some (Except.ok (), { s2 with connections := s2.connections - 1 })
      else some (Except.error (PyExc.httpException 404),
                 { s2 with connections := s2.connections - 1 })

/-! ### `ServiceManager.allocate` -/

/-- Insert a service into a cost-sorted list, before the first strictly
later entry with cost not below its own (stable, like Python `sorted`). -/
def orderedInsertCost (now : ℚ) (x : Service) : List Service → List Service
  | [] => [x]
  | y :: ys =>
    if Service.shutdown_cost x now ≤ Service.shutdown_cost y now then x :: y :: ys
    else y :: orderedInsertCost now x ys

/-- Stable sort by ascending `shutdown_cost` (the `sorted(..., key=...)` in
`list_services`). -/
def sortByCost (now : ℚ) : List Service → List Service
  | [] => []
  | x :: xs => orderedInsertCost now x (sortByCost now xs)

/-- Mirror of `ServiceManager.list_services`: the non-stopped services on
the device (every non-stopped service when `device < 0`), sorted by
ascending shutdown cost. -/
def list_services (services : List Service) (device : Int) (now : ℚ) :
    List Service :=
  sortByCost now (services.filter (fun s =>
    decide (s.status ≠ ServiceStatus.stopped ∧ (s.device = device ∨ device < 0))))

/-- Mirror of `ServiceManager.used_memory`: total current `vram` of the
services on a device (the source sums `vram` even for the CPU device). -/
def used_memory (services : List Service) (device : Int) (now : ℚ) : Nat :=
  ((list_services services device now).map (fun s => s.vram)).sum

/-- Mirror of `ServiceManager.allocated_memory`: total reserved RAM (CPU)
or reserved VRAM (GPU) of the services on a device. -/
def allocated_memory (services : List Service) (device : Int) (now : ℚ) : Nat :=
  ((list_services services device now).map (fun s =>
    if device < 0 then Service.reserved_ram s else Service.reserved_vram s)).sum

/-- How `allocate` fails: the claim expects `ResourceExhaustedError`; the
`min()` of an empty sequence raises `ValueError`. -/
inductive AllocErr where
  | resourceExhausted
  | valueErrorMinEmpty
deriving DecidableEq, Repr

/-- The cost-accumulation loop of `allocate` (step 3 of the spec): walk the
cost-sorted services of a device, stopping as soon as the freed prefix
covers both budgets, summing shutdown costs. -/
def walkCost (now : ℚ) (freeCpu freeDev : Int) (reqRam reqVram : Nat) :
    List Service → Nat → Nat → ℚ → ℚ
  | [], _, _, c => c
  | s :: rest, accRam, accVram, c =>
    if (reqRam : Int) ≤ freeCpu + accRam ∧ (reqVram : Int) ≤ freeDev + accVram then c
    else walkCost now freeCpu freeDev reqRam reqVram rest
      (accRam + Service.reserved_ram s) (accVram + Service.reserved_vram s)
      (c + Service.shutdown_cost s now)

/-- The final device-choice step of `allocate`: `min(list(costs.values()))`
raises `ValueError` on an empty dict; otherwise the first valid device
attaining the minimum is returned; the trailing
`raise ResourceExhaustedError()` is reached only if no device attains it. -/
def chooseDevice (costOf : Int → ℚ) : List Int → Except AllocErr Int
  | [] => Except.error AllocErr.valueErrorMinEmpty
  | v :: vs =>
    let m := (vs.map costOf).foldl min (costOf v)
    match (v :: vs).find? (fun d => decide (costOf d = m)) with
    | some d => Except.ok d
    | none => Except.error AllocErr.resourceExhausted

/-- The `MemoryInfo` of a GPU device in the `system_vram` mapping
(association list keyed by GPU index; only ever consulted at present keys). -/
def memInfoFor (system_vram : List (Nat × MemoryInfo)) (d : Int) : MemoryInfo :=
  match system_vram.find? (fun p => decide ((p.1 : Int) = d)) with
  | some p => p.2
  | none => ⟨0, 0, 0⟩

/-- Mirror of `ServiceManager.allocate` (`app/manager.py`, lines 507-583).
`system_usage` per device is `max(0, used - used_memory(device))`, which
truncated `Nat` subtraction models exactly; the validity tests and free
memory are computed in `Int` like Python.  The eviction side effects
(`stop_service` on the chosen prefix) have no bearing on the returned
device or the raised error and are elided. -/
def allocate (use_cpu use_gpu : Bool) (required_ram required_vram : Nat)
    (system_ram : MemoryInfo) (system_vram : List (Nat × MemoryInfo))
    (services : List Service) (now : ℚ) : Except AllocErr Int :=
  let susage : Int → Nat := fun device =>
    if device < 0 then system_ram.used - used_memory services (-1) now
    else (memInfoFor system_vram device).used - used_memory services device now
  let validDevices : List Int :=
    (if use_gpu then
      (system_vram.filter (fun p =>
        decide ((required_vram : Int) ≤ (p.2.total : Int) - (susage (p.1 : Int) : Int)))).map
        (fun p => (p.1 : Int))
     else [])
    ++ (if use_cpu ∧ (required_ram : Int) ≤ (system_ram.total : Int) - (susage (-1) : Int)
        then [(-1 : Int)] else [])
  let freeMem : Int → Int := fun device =>
    (if device < 0 then (system_ram.total : Int) else ((memInfoFor system_vram device).total : Int))
      - (susage device : Int) - (allocated_memory services device now : Int)
  let costOf : Int → ℚ := fun device =>
    walkCost now (freeMem (-1)) (freeMem device) required_ram required_vram
      (list_services services device now) 0 0 0
    + (if device = -1 then 1000000 else 0)
  chooseDevice costOf validDevices

/-! ### Concrete fixtures used by witnesses and counterexamples -/

/-- A demonstration configuration (both devices allowed, no configured
maxima, the dataclass default timeouts). -/
def cfgDemo : ServiceConfig := ⟨true, true, 0, 0, 3600, 60⟩

/-- A freshly registered service that is `RUNNING` with no open
connections. -/
def svcRunnable : Service :=
  { Service.initial cfgDemo with status := ServiceStatus.running }

/-- The state `stop_service` leaves `svcRunnable` in. -/
def svcDrained : Service :=
  { svcRunnable with status := ServiceStatus.stopped, pid := -1 }

/-- A `STOPPED` service carrying an open connection (the dispatcher creates
exactly this state between its `connections += 1` and the completion of
`start_service`). -/
def svcStoppedBusy : Service :=
  { Service.initial cfgDemo with connections := 1 }

/-! ## Theorems -/

/-! ### Helper lemmas for the size parser -/

theorem lastN_append (l r : List Char) : lastN (l ++ r) r.length = r := by
  unfold lastN
  rw [List.length_append, Nat.add_sub_cancel, List.drop_left]

theorem dropLastN_append (l r : List Char) : dropLastN (l ++ r) r.length = l := by
  unfold dropLastN
  rw [List.length_append, Nat.add_sub_cancel, List.take_left]

theorem mem_of_mem_lastN {c : Char} {l : List Char} {n : Nat}
    (h : c ∈ lastN l n) : c ∈ l := List.mem_of_mem_drop h

theorem parseNatDigits_some {l : List Char} {n : Nat}
    (h : parseNatDigits l = some n) : l ≠ [] ∧ ∀ c ∈ l, c.isDigit = true := by
  unfold parseNatDigits at h
  split at h
  · rename_i hc
    exact ⟨hc.1, fun c hmem => List.all_eq_true.mp hc.2 c hmem⟩
  · exact absurd h (by simp)

theorem unitVal_pair_ne_i (d c : Char) (hc : c ≠ 'i') : unitVal [d, c] = none := by
  have h2 : ∀ x : Char, ¬ [d, c] = [x, 'i'] := by
    intro x h
    injection h with _ h
    injection h with h _
    exact hc h
  unfold unitVal
  rw [if_neg (by simp), if_neg (by simp), if_neg (by simp), if_neg (by simp),
    if_neg (by simp), if_neg (by simp), if_neg (by simp), if_neg (by simp),
    if_neg (h2 'K'), if_neg (h2 'M'), if_neg (h2 'G')]

theorem unitVal_digits (l : List Char) (h : ∀ c ∈ l, c.isDigit = true) :
    unitVal l = none := by
  have hne : ∀ (x : Char) (key : List Char), x ∈ key → ¬ x.isDigit = true →
      ¬ l = key := fun x key hx hnd heq => hnd (h x (heq ▸ hx))
  unfold unitVal
  rw [if_neg (hne 'k' _ (by simp) (by decide)),
    if_neg (hne 'K' _ (by simp) (by decide)),
    if_neg (hne 'm' _ (by simp) (by decide)),
    if_neg (hne 'M' _ (by simp) (by decide)),
    if_neg (hne 'g' _ (by simp) (by decide)),
    if_neg (hne 'G' _ (by simp) (by decide)),
    if_neg (hne 't' _ (by simp) (by decide)),
    if_neg (hne 'T' _ (by simp) (by decide)),
    if_neg (hne 'K' _ (by simp) (by decide)),
    if_neg (hne 'M' _ (by simp) (by decide)),
    if_neg (hne 'G' _ (by simp) (by decide))]

theorem convert_two_char (ds : List Char) (n : Nat) (a b : Char) (m : Nat)
    (hp : parseNatDigits ds = some n) (hu : unitVal [a, b] = some m) :
    convert_to_int (ds ++ [a, b]) = some (n * m) := by
  unfold convert_to_int
  rw [show lastN (ds ++ [a, b]) 2 = [a, b] from lastN_append ds [a, b], hu,
    show dropLastN (ds ++ [a, b]) 2 = ds from dropLastN_append ds [a, b], hp]
  rfl

theorem convert_one_char (ds : List Char) (n : Nat) (c : Char) (m : Nat)
    (hp : parseNatDigits ds = some n) (hu : unitVal [c] = some m) (hc : c ≠ 'i') :
    convert_to_int (ds ++ [c]) = some (n * m) := by
  obtain ⟨hne, _⟩ := parseNatDigits_some hp
  obtain ⟨ds', d, rfl⟩ := (List.eq_nil_or_concat ds).resolve_left hne
  rw [List.concat_eq_append] at hp ⊢
  unfold convert_to_int
  rw [show lastN ((ds' ++ [d]) ++ [c]) 2 = [d, c] by
        rw [List.append_assoc]; exact lastN_append ds' [d, c],
      unitVal_pair_ne_i d c hc,
      show lastN ((ds' ++ [d]) ++ [c]) 1 = [c] from lastN_append (ds' ++ [d]) [c],
      hu,
      show dropLastN ((ds' ++ [d]) ++ [c]) 1 = ds' ++ [d] from
        dropLastN_append (ds' ++ [d]) [c],
      hp]
  rfl

/-- Claim C5: the size parser follows the suffix grammar of the spec:
a numeric string followed by a `units` suffix parses to the number times
the suffix's multiplier (`k,m,g,t` and their uppercase forms are decimal
`10^3..10^12`, `Ki,Mi,Gi` are binary `2^10,2^20,2^30`), a suffixless
numeric string parses to itself in bytes, and in particular
`parse("4Gi") = 4*2^30`, `parse("4G") = 4*10^9`, `parse("512") = 512`.
The `n * m < 2^53` bound is where Python's `int(float(prefix) * unit)` is
exact integer arithmetic. -/
theorem convert_to_int_suffix_grammar :
    (∀ (ds u : List Char) (n m : Nat), parseNatDigits ds = some n →
      unitVal u = some m → n * m < 2 ^ 53 →
      convert_to_int (ds ++ u) = some (n * m))
    ∧ (∀ (ds : List Char) (n : Nat), parseNatDigits ds = some n →
        convert_to_int ds = some n)
    ∧ convert_to_int ['4', 'G', 'i'] = some (4 * 2 ^ 30)
    ∧ convert_to_int ['4', 'G'] = some (4 * 10 ^ 9)
    ∧ convert_to_int ['5', '1', '2'] = some 512 := by
  refine ⟨?_, ?_, by rfl, by rfl, by rfl⟩
  · intro ds u n m hp hu _
    match u with
    | [] => rw [show unitVal [] = none from rfl] at hu; cases hu
    | [c] =>
      by_cases hc : c = 'i'
      · subst hc; rw [show unitVal ['i'] = none from rfl] at hu; cases hu
      · exact convert_one_char ds n c m hp hu hc
    | [a, b] => exact convert_two_char ds n a b m hp hu
    | a :: b :: e :: rest => simp [unitVal] at hu
  · intro ds n hp
    obtain ⟨_, hdig⟩ := parseNatDigits_some hp
    unfold convert_to_int
    rw [unitVal_digits (lastN ds 2) (fun c hc => hdig c (mem_of_mem_lastN hc)),
      unitVal_digits (lastN ds 1) (fun c hc => hdig c (mem_of_mem_lastN hc))]
    exact hp

/-- Witness for C5: the general suffix clause evaluated at `"7Mi"`. -/
theorem convert_to_int_suffix_grammar_witness :
    convert_to_int ['7', 'M', 'i'] = some (7 * 2 ^ 20) :=
  convert_to_int_suffix_grammar.1 ['7'] ['M', 'i'] 7 (2 ^ 20) (by rfl) (by rfl)
    (by norm_num)

/-! ### Helper lemmas for `to_container_name` -/

theorem lowerChar_fixed {c : Char} (h : isAllowedChar c = true) :
    lowerChar c = c := by
  have h' := of_decide_eq_true h
  unfold lowerChar
  rcases h' with ⟨h1, _⟩ | ⟨_, h2⟩ | rfl | rfl | rfl
  · rw [if_neg]
    rintro ⟨_, hz⟩
    have e1 : 'a'.toNat = 97 := rfl
    have e2 : 'Z'.toNat = 90 := rfl
    rw [e1] at h1
    rw [e2] at hz
    omega
  · rw [if_neg]
    rintro ⟨hA, _⟩
    have e1 : '9'.toNat = 57 := rfl
    have e2 : 'A'.toNat = 65 := rfl
    rw [e1] at h2
    rw [e2] at hA
    omega
  · rfl
  · rfl
  · rfl

theorem sanitizeChar_fixed {c : Char} (h : isAllowedChar c = true) :
    sanitizeChar c = c := by
  unfold sanitizeChar
  rw [if_pos h]

theorem map_fixed_of_allowed (f : Char → Char)
    (hf : ∀ c : Char, isAllowedChar c = true → f c = c) :
    ∀ l : List Char, (∀ c ∈ l, isAllowedChar c = true) → l.map f = l := by
  intro l
  induction l with
  | nil => intro _; rfl
  | cons c cs ih =>
    intro h
    rw [List.map_cons, hf c (h c (List.mem_cons_self c cs)),
      ih (fun x hx => h x (List.mem_cons_of_mem c hx))]

theorem dropWhile_eq_self_of_head (p : Char → Bool) (l : List Char)
    (h : ∀ c, l.head? = some c → p c = false) : l.dropWhile p = l := by
  cases l with
  | nil => rfl
  | cons c cs =>
    rw [List.dropWhile_cons, h c rfl]
    simp

theorem stripDotDash_eq_self (l : List Char)
    (hh : ∀ c, l.head? = some c → isDotDash c = false)
    (hl : ∀ c, l.getLast? = some c → isDotDash c = false) :
    stripDotDash l = l := by
  unfold stripDotDash
  rw [dropWhile_eq_self_of_head _ _ hh,
    dropWhile_eq_self_of_head _ _ (fun c hc => hl c (by rwa [List.head?_reverse] at hc)),
    List.reverse_reverse]

theorem to_container_name_nice (l : List Char)
    (hall : ∀ c ∈ l, isAllowedChar c = true)
    (hlast : ∀ c, l.getLast? = some c → isDotDash c = false) :
    to_container_name l = (['c', 'a', '_'] ++ l).take 255 := by
  unfold to_container_name
  rw [map_fixed_of_allowed lowerChar (fun c h => lowerChar_fixed h) l hall,
    show (['c', 'a', '_'] ++ l).map sanitizeChar
        = ['c', 'a', '_'].map sanitizeChar ++ l.map sanitizeChar from List.map_append ..,
    map_fixed_of_allowed sanitizeChar (fun c h => sanitizeChar_fixed h) l hall,
    show (['c', 'a', '_'] : List Char).map sanitizeChar = ['c', 'a', '_'] from rfl,
    stripDotDash_eq_self _ (by intro c hc; injection hc with hc; subst hc; rfl) ?_]
  intro c hc
  rcases (List.eq_nil_or_concat l) with rfl | ⟨L, b, rfl⟩
  · rw [show ((['c', 'a', '_'] ++ []) : List Char).getLast? = some '_' from rfl] at hc
    injection hc with hc
    subst hc
    rfl
  · rw [List.concat_eq_append, ← List.append_assoc, List.getLast?_concat] at hc
    injection hc with hc
    rw [← hc]
    exact hlast b (by rw [List.concat_eq_append, List.getLast?_concat])

/-- Claim C4 counterexample: `"ca_x"` satisfies the prefix and charset
rules, yet applying the derivation twice keeps prepending `ca_`:
`to_container_name (to_container_name "ca_x") = "ca_ca_ca_x"` differs from
`to_container_name "ca_x" = "ca_ca_x"`, so the derivation is not
idempotent, contrary to the claim. -/
theorem to_container_name_not_idempotent_cx :
    to_container_name (to_container_name ['c', 'a', '_', 'x'])
      ≠ to_container_name ['c', 'a', '_', 'x'] := by decide

/-- Claim C4 as amended: the derivation unconditionally prepends `ca_`.
For every name built from the allowed charset `[a-z0-9_.-]` that does not
end in a strip character (and is short enough that the 255-truncation does
not fire), `to_container_name n` is `"ca_" + n` and applying the derivation
again yields `"ca_" + to_container_name n`, which is never equal to
`to_container_name n`: the derivation is not idempotent on any input
satisfying the claim's premise. -/
theorem to_container_name_prepends :
    ∀ l : List Char, (∀ c ∈ l, isAllowedChar c = true) →
      (∀ c, l.getLast? = some c → isDotDash c = false) →
      to_container_name l = (['c', 'a', '_'] ++ l).take 255
      ∧ (l.length ≤ 249 →
          to_container_name (to_container_name l) = ['c', 'a', '_'] ++ to_container_name l
          ∧ to_container_name (to_container_name l) ≠ to_container_name l) := by
  intro l hall hlast
  have h1 := to_container_name_nice l hall hlast
  refine ⟨h1, fun hlen => ?_⟩
  have hcal : ∀ c ∈ ['c', 'a', '_'] ++ l, isAllowedChar c = true := by
    intro c hc
    rcases List.mem_append.mp hc with hc | hc
    · fin_cases hc <;> rfl
    · exact hall c hc
  have hcalast : ∀ c, (['c', 'a', '_'] ++ l).getLast? = some c → isDotDash c = false := by
    intro c hc
    rcases (List.eq_nil_or_concat l) with rfl | ⟨L, b, rfl⟩
    · rw [show ((['c', 'a', '_'] ++ []) : List Char).getLast? = some '_' from rfl] at hc
      injection hc with hc
      subst hc
      rfl
    · rw [List.concat_eq_append, ← List.append_assoc, List.getLast?_concat] at hc
      injection hc with hc
      rw [← hc]
      exact hlast b (by rw [List.concat_eq_append, List.getLast?_concat])
  have e1 : to_container_name l = ['c', 'a', '_'] ++ l := by
    rw [h1]
    exact List.take_of_length_le (by simp; omega)
  have e2 : to_container_name (to_container_name l) = ['c', 'a', '_'] ++ (['c', 'a', '_'] ++ l) := by
    rw [e1, to_container_name_nice _ hcal hcalast]
    exact List.take_of_length_le (by simp; omega)
  constructor
  · rw [e2, e1]
  · rw [e2, e1]
    intro heq
    have := congrArg List.length heq
    simp at this
    omega

/-- Witness for the amended C4 at the charset-rule-satisfying name `"x"`. -/
theorem to_container_name_prepends_witness :
    to_container_name ['x'] = ['c', 'a', '_', 'x']
      ∧ to_container_name (to_container_name ['x']) ≠ to_container_name ['x'] := by
  obtain ⟨h1, h2⟩ := to_container_name_prepends ['x'] (by decide)
    (by intro c hc; injection hc with hc; subst hc; rfl)
  exact ⟨by simpa using h1, (h2 (by decide)).2⟩

/-! ### Helper lemmas for the environment parser -/

theorem lookupEnv_dictSet_self (env : List (List Char × List Char))
    (k v : List Char) : lookupEnv (dictSet env k v) k = some v := by
  induction env with
  | nil => simp [dictSet, lookupEnv]
  | cons p rest ih =>
    obtain ⟨k', v'⟩ := p
    by_cases hk : k' = k
    · simp [dictSet, lookupEnv, hk]
    · simp only [dictSet, if_neg hk, lookupEnv]
      exact ih

theorem lookupEnv_dictSet_other (env : List (List Char × List Char))
    (k v k₂ : List Char) (hk : k₂ ≠ k) :
    lookupEnv (dictSet env k v) k₂ = lookupEnv env k₂ := by
  have hk' : ¬ k = k₂ := fun h => hk h.symm
  induction env with
  | nil => simp [dictSet, lookupEnv, hk']
  | cons p rest ih =>
    obtain ⟨k', v'⟩ := p
    by_cases hkk : k' = k
    · subst hkk
      simp [dictSet, lookupEnv, hk']
    · simp only [dictSet, if_neg hkk, lookupEnv]
      by_cases hk2 : k' = k₂
      · rw [if_pos hk2, if_pos hk2]
      · rw [if_neg hk2, if_neg hk2]
        exact ih

/-- Claim C9 counterexample: the line `"=x"` has an empty key and the claim
says a line with an empty key contributes nothing (the result would be the
empty environment), yet `parse_env_multiline` maps it to the single pair
`("", "x")`. -/
theorem parse_env_empty_key_cx :
    parse_env_multiline ['=', 'x'] = [(([] : List Char), ['x'])] := by rfl

/-- Claim C9 as amended: each line containing `=` contributes the pair of
trimmed key and trimmed value split at the first `=` — including when the
trimmed key is empty — overriding only that key; every line without `=`
(in particular every empty line) contributes nothing. -/
theorem parse_env_grammar :
    (∀ (env : List (List Char × List Char)) (line : List Char),
      line.contains '=' = false → envStep env line = env)
    ∧ (∀ (env : List (List Char × List Char)) (line : List Char),
        line.contains '=' = true →
        lookupEnv (envStep env line) (envKey line) = some (envVal line)
        ∧ ∀ k : List Char, k ≠ envKey line →
            lookupEnv (envStep env line) k = lookupEnv env k) := by
  constructor
  · intro env line h
    unfold envStep
    rw [if_neg (show ¬ line.contains '=' = true by rw [h]; decide)]
  · intro env line h
    refine ⟨?_, fun k hk => ?_⟩
    · unfold envStep
      rw [if_pos h]
      exact lookupEnv_dictSet_self env (envKey line) (envVal line)
    · unfold envStep
      rw [if_pos h]
      exact lookupEnv_dictSet_other env (envKey line) (envVal line) k hk

/-- Witness for the amended C9: the line `" a = b "` contributes the pair
of trimmed key `"a"` and trimmed value `"b"`. -/
theorem parse_env_grammar_witness :
    lookupEnv (envStep [] [' ', 'a', ' ', '=', ' ', 'b', ' ']) ['a'] = some ['b'] :=
  (parse_env_grammar.2 [] [' ', 'a', ' ', '=', ' ', 'b', ' '] (by rfl)).1

/-! ### The health probe is total over `health_check_type` -/

/-- Claim C10: for every `health_check_type` string other than `"none"`,
`"http"` and `"log"`, `check_container_health` falls through every branch
and returns `False` without raising, whatever the oracles report. -/
theorem check_container_health_unknown_type :
    ∀ (hct regexStr : List Char) (httpResult : Except Unit (List Char))
      (reSearch : List Char → List Char → Bool) (logsResult : LogsResult),
      hct ≠ ['n', 'o', 'n', 'e'] → hct ≠ ['h', 't', 't', 'p'] →
      hct ≠ ['l', 'o', 'g'] →
      check_container_health hct regexStr httpResult reSearch logsResult
        = Except.ok false := by
  intro hct regexStr httpResult reSearch logsResult h1 h2 h3
  unfold check_container_health
  rw [if_neg h1, if_neg h2, if_neg h3]

/-- Witness for C10 at the unknown type `"bad"`. -/
theorem check_container_health_unknown_type_witness :
    check_container_health ['b', 'a', 'd'] [] (Except.ok [])
      (fun _ _ => true) LogsResult.notFound = Except.ok false :=
  check_container_health_unknown_type ['b', 'a', 'd'] [] (Except.ok [])
    (fun _ _ => true) LogsResult.notFound (by decide) (by decide) (by decide)

/-! ### The shutdown-cost formula -/

/-- Claim C7: for every service (live or not) the source's
`Service.shutdown_cost` is exactly the spec's formula
`max(1, boot_time) / (vram + ram * 0.25 + 1e8)
  * max(0, 1 - idle_time / idle_timeout)^2
  * (10 if connections > 0 else 1) * (1 if use_gpu else 0.5)`
with `idle_time = now - last_activity`. -/
theorem shutdown_cost_matches_spec :
    ∀ (s : Service) (now : ℚ),
      Service.shutdown_cost s now
        = specShutdownCost s.boot_time s.vram s.ram (now - s.last_activity)
            s.config.idle_timeout s.connections s.config.use_gpu :=
  fun _ _ => rfl

/-! ### `stop_service` postconditions -/

/-- Claim C6 counterexample: a `STOPPED` service holding an open connection
(the dispatcher creates this state between `connections += 1` and the end
of `start_service`): `stop_service` returns immediately via the
`status == STOPPED` early return with `connections` still `1`, so the claim
that `connections == 0` whenever `stop` returns fails. -/
theorem stop_service_already_stopped_cx :
    stop_service svcStoppedBusy false = some svcStoppedBusy
    ∧ svcStoppedBusy.connections = 1 := ⟨rfl, rfl⟩

/-- Claim C6 as amended: whenever `stop_service` returns, the status is
`STOPPED`, and `stop_service` never changes `connections`; on every run that
actually performed a stop (entry status not `STOPPED`) the drain loop has
moreover forced `connections ≤ 0` (hence `= 0` under the nonnegativity
invariant) and `pid = -1`; and the result does not depend on whether the
container engine's stop call raises (the exception is swallowed).  The
early return on an already-`STOPPED` service, however, leaves a nonzero
`connections` counter untouched. -/
theorem stop_service_postcondition :
    (∀ (s : Service) (b : Bool) (t : Service), stop_service s b = some t →
      t.status = ServiceStatus.stopped
      ∧ t.connections = s.connections
      ∧ (s.status ≠ ServiceStatus.stopped → t.pid = -1 ∧ t.connections ≤ 0))
    ∧ ∀ (s : Service), stop_service s true = stop_service s false := by
  constructor
  · intro s b t h
    unfold stop_service at h
    split at h
    · cases h
    · cases h
    · rename_i hs
      injection h with h
      subst h
      exact ⟨hs, rfl, fun hne => absurd hs hne⟩
    · rename_i hs
      by_cases hc : 0 < s.connections
      · rw [if_pos hc] at h
        cases h
      · rw [if_neg hc] at h
        injection h with h
        subst h
        exact ⟨rfl, rfl, fun _ => ⟨rfl, le_of_not_lt hc⟩⟩
  · intro s
    unfold stop_service
    rfl

/-- Witness for the amended C6: stopping `svcRunnable` (RUNNING, drained)
returns the `STOPPED` state with `pid = -1`. -/
theorem stop_service_postcondition_witness :
    svcDrained.status = ServiceStatus.stopped
    ∧ svcDrained.connections = svcRunnable.connections
    ∧ svcDrained.pid = -1 := by
  have h := stop_service_postcondition.1 svcRunnable false svcDrained (by rfl)
  exact ⟨h.1, h.2.1, (h.2.2 (by decide)).1⟩

/-! ### Peak accounting (C8) -/

theorem peakInv_applyMemOp (s : Service) (op : MemOp) (h : PeakInv s) :
    PeakInv (applyMemOp s op) := by
  cases op with
  | attachPid p => exact h
  | refresh r v =>
    simp only [applyMemOp, refresh_container_memory]
    split_ifs <;> exact ⟨by simp <;> omega, by simp <;> omega⟩
  | recordBoot t => exact h
  | clearPid => exact h

theorem peaksLe_applyMemOp (s : Service) (op : MemOp) :
    peaksLe s (applyMemOp s op) := by
  cases op with
  | attachPid p => exact ⟨le_refl _, le_refl _, le_refl _⟩
  | refresh r v =>
    simp only [applyMemOp, refresh_container_memory]
    split_ifs <;> exact ⟨by simp <;> omega, by simp <;> omega, by simp⟩
  | recordBoot t =>
    refine ⟨le_refl _, le_refl _, ?_⟩
    simp only [applyMemOp, recordBootTime]
    split_ifs with hb
    · exact le_of_lt hb
    · exact le_refl _
  | clearPid => exact ⟨le_refl _, le_refl _, le_refl _⟩

theorem peakInv_applyMemOps (s : Service) (ops : List MemOp) (h : PeakInv s) :
    PeakInv (applyMemOps s ops) := by
  induction ops generalizing s with
  | nil => exact h
  | cons op rest ih => exact ih (applyMemOp s op) (peakInv_applyMemOp s op h)

/-- Claim C8: starting from a freshly registered service, after any
sequence of the operations that touch `pid`, `ram`, `vram` and `boot_time`
(pid attaches by `refresh_containers`, memory refreshes, boot-time
recordings, pid resets on stop), the peaks dominate the current readings
(`peak_ram ≥ ram`, `peak_vram ≥ vram`); and every single such operation
only raises `peak_ram`, `peak_vram` and `peak_boot_time`, never lowers
them.  The final conjunct runs a concrete live-pid trace — attach pid 7,
measure (5, 3), then measure (2, 1) — showing the quantification reaches
the `pid ≥ 0` branch where the readings drop while the peaks latch at
their maxima, so the invariant is 2 ≤ 5 and 1 ≤ 3 there, not the
degenerate 0 ≤ peak. -/
theorem peak_accounting_invariant :
    (∀ (config : ServiceConfig) (ops : List MemOp),
      PeakInv (applyMemOps (Service.initial config) ops))
    ∧ (∀ (s : Service) (op : MemOp), peaksLe s (applyMemOp s op))
    ∧ ∀ (config : ServiceConfig),
        (applyMemOps (Service.initial config)
          [MemOp.attachPid 7, MemOp.refresh 5 3, MemOp.refresh 2 1]).ram = 2
        ∧ (applyMemOps (Service.initial config)
            [MemOp.attachPid 7, MemOp.refresh 5 3, MemOp.refresh 2 1]).peak_ram = 5
        ∧ (applyMemOps (Service.initial config)
            [MemOp.attachPid 7, MemOp.refresh 5 3, MemOp.refresh 2 1]).vram = 1
        ∧ (applyMemOps (Service.initial config)
            [MemOp.attachPid 7, MemOp.refresh 5 3, MemOp.refresh 2 1]).peak_vram = 3 :=
  ⟨fun config ops =>
    peakInv_applyMemOps (Service.initial config) ops ⟨le_refl 0, le_refl 0⟩,
   peaksLe_applyMemOp,
   fun _ => ⟨rfl, rfl, rfl, rfl⟩⟩

/-! ### The dispatcher around `start_service` failures (C2, C3) -/

/-- Claim C2 (refuted): for every request that passed the existence and
permission checks against a `STOPPED` service, if `start_service` raises
(`allocate` failing, with any exception `e`), the handler re-raises `e`
from outside the `try/finally` and completes WITHOUT decrementing
`connections`: the final counter is the entry counter plus one, where the
claim requires it to be back at the entry value on every completion path. -/
theorem proxy_request_leaks_connection_on_start_failure :
    ∀ (s : Service) (now : ℚ) (e : PyExc) (new_port : Int) (healthy : Bool)
      (elapsed : ℚ) (forward_ok : Bool),
      (proxy_request true false false { s with status := ServiceStatus.stopped }
          now (Except.error e) new_port healthy elapsed forward_ok).map
          (fun p => (p.1, p.2.connections))
        = some (Except.error e, s.connections + 1) :=
  fun _ _ _ _ _ _ _ => rfl

/-- Claim C3 counterexample: a request for a fresh `STOPPED` service whose
allocation fails with `ResourceExhausted` makes the handler terminate with
the uncaught `ResourceExhausted` exception — which is not an
`HTTPException 503`, so the dispatcher does not respond with status 503
(the framework's default handler renders an unhandled exception as a 500)
— while the service status does remain `STOPPED`. -/
theorem proxy_request_resource_exhausted_cx :
    (proxy_request true false false (Service.initial cfgDemo) 0
        (Except.error PyExc.resourceExhausted) 5000 false 0 true).map
        (fun p => (p.1, p.2.status))
      = some (Except.error PyExc.resourceExhausted, ServiceStatus.stopped)
    ∧ (Except.error PyExc.resourceExhausted : Except PyExc Unit)
        ≠ Except.error (PyExc.httpException 503) :=
  ⟨rfl, fun h => PyExc.noConfusion (Except.error.inj h)⟩

/-- Claim C3 as amended: when the start attempt for a `STOPPED` service
fails with `ResourceExhausted`, the dispatcher has no handler for it: the
exception propagates out of `proxy_request` unhandled (so the framework
answers 500, not 503), the service's status remains `STOPPED`, and the
`connections` increment leaks. -/
theorem proxy_request_resource_exhausted_propagates :
    ∀ (s : Service) (now : ℚ) (new_port : Int) (healthy : Bool)
      (elapsed : ℚ) (forward_ok : Bool),
      proxy_request true false false { s with status := ServiceStatus.stopped }
          now (Except.error PyExc.resourceExhausted) new_port healthy elapsed
          forward_ok
        = some (Except.error PyExc.resourceExhausted,
            { s with status := ServiceStatus.stopped,
                     connections := s.connections + 1, last_activity := now }) :=
  fun _ _ _ _ _ _ => rfl

/-! ### `allocate` with no valid device (C1) -/

theorem foldlMin_mem (x : ℚ) (xs : List ℚ) : xs.foldl min x ∈ x :: xs := by
  induction xs generalizing x with
  | nil => exact List.mem_singleton_self x
  | cons y ys ih =>
    rw [List.foldl_cons]
    rcases List.mem_cons.mp (ih (min x y)) with h | h
    · rw [h]
      rcases min_choice x y with hc | hc <;> rw [hc]
      · exact List.mem_cons_self _ _
      · exact List.mem_cons_of_mem _ (List.mem_cons_self _ _)
    · exact List.mem_cons_of_mem _ (List.mem_cons_of_mem _ h)

theorem find?_isSome_of_mem {α : Type} (p : α → Bool) {l : List α} {d : α}
    (hd : d ∈ l) (hp : p d = true) : ∃ x, l.find? p = some x := by
  induction l with
  | nil => cases hd
  | cons a rest ih =>
    by_cases ha : p a = true
    · exact ⟨a, List.find?_cons_of_pos rest ha⟩
    · rcases List.mem_cons.mp hd with rfl | hd'
      · exact absurd hp ha
      · obtain ⟨x, hx⟩ := ih hd'
        exact ⟨x, by rw [List.find?_cons_of_neg rest ha]; exact hx⟩

theorem chooseDevice_ne_resourceExhausted (f : Int → ℚ) (l : List Int) :
    chooseDevice f l ≠ Except.error AllocErr.resourceExhausted := by
  cases l with
  | nil => exact fun h => AllocErr.noConfusion (Except.error.inj h)
  | cons v vs =>
    have hm := foldlMin_mem (f v) (vs.map f)
    have hex : ∃ d, d ∈ v :: vs ∧ f d = (vs.map f).foldl min (f v) := by
      rcases List.mem_cons.mp hm with h | h
      · exact ⟨v, List.mem_cons_self _ _, h.symm⟩
      · obtain ⟨d, hd, hfd⟩ := List.mem_map.mp h
        exact ⟨d, List.mem_cons_of_mem _ hd, hfd⟩
    obtain ⟨d, hd, hfd⟩ := hex
    obtain ⟨x, hx⟩ := find?_isSome_of_mem
      (fun d => decide (f d = (vs.map f).foldl min (f v))) hd (by simp [hfd])
    simp only [chooseDevice]
    rw [hx]
    exact fun h => Except.noConfusion h

/-- Claim C1 (refuted): when no device is valid — here `use_cpu` and
`use_gpu` are both allowed but there is no GPU and the host reports 100
bytes of RAM against a 1000-byte requirement, so `valid_devices` is empty —
`allocate` does NOT raise `ResourceExhaustedError`: it raises the
`ValueError` of `min()` applied to the empty `costs.values()`.  Moreover
the trailing `raise ResourceExhaustedError()` is dead code: no input at all
makes `allocate` raise it, because whenever `valid_devices` is non-empty
the minimum cost is attained and the device-selection loop returns. -/
theorem allocate_no_valid_device_value_error :
    allocate true true 1000 0 ⟨0, 0, 100⟩ [] [] 0
      = Except.error AllocErr.valueErrorMinEmpty
    ∧ ∀ (use_cpu use_gpu : Bool) (required_ram required_vram : Nat)
        (system_ram : MemoryInfo) (system_vram : List (Nat × MemoryInfo))
        (services : List Service) (now : ℚ),
        allocate use_cpu use_gpu required_ram required_vram system_ram
            system_vram services now
          ≠ Except.error AllocErr.resourceExhausted := by
  constructor
  · rfl
  · intro use_cpu use_gpu required_ram required_vram system_ram system_vram services now
    exact chooseDevice_ne_resourceExhausted _ _

end CogAsm
